import Mathlib

/-!
Verification of the stock/sales web service against its design document.

The development shallowly embeds the Python source (main.py):

* JSON/Python values that can appear in a decoded request body are modelled
  by `JValue`, with Python truthiness, isinstance checks and numeric
  coercions modelled explicitly; floating point arithmetic is modelled by
  exact rationals.
* The SQLite-backed tables are modelled by `Store`: the list of Goods rows
  and the optional total_sales accumulator of the GlobalData table.
* Handlers return `Option`-valued results: `none` models any error response
  or uncaught exception, in which case the session is discarded without a
  commit and the store is unchanged.
* MD5 is implemented bit-faithfully (RFC 1321) over the UTF-8 bytes of the
  input, exactly as hashlib.md5 followed by hexdigest does; the
  implementation was checked against the standard RFC 1321 test vectors.
-/

/-! ## MD5 (hashlib.md5 / hexdigest) -/

def UINT32_MOD : Nat := 4294967296

/-- Rotate the low 32 bits of `x` left by `s` (for `x < 2 ^ 32`). -/
def rotl32 (x s : Nat) : Nat :=
  ((x <<< s) % UINT32_MOD) ||| (x >>> (32 - s))

/-- Bitwise complement on 32-bit words. -/
def not32 (x : Nat) : Nat := 4294967295 - x

/-- The 64 MD5 round constants, floor(abs(sin(i + 1)) * 2 ^ 32). -/
def md5K : List Nat :=
  [0xd76aa478, 0xe8c7b756, 0x242070db, 0xc1bdceee,
   0xf57c0faf, 0x4787c62a, 0xa8304613, 0xfd469501,
   0x698098d8, 0x8b44f7af, 0xffff5bb1, 0x895cd7be,
   0x6b901122, 0xfd987193, 0xa679438e, 0x49b40821,
   0xf61e2562, 0xc040b340, 0x265e5a51, 0xe9b6c7aa,
   0xd62f105d, 0x02441453, 0xd8a1e681, 0xe7d3fbc8,
   0x21e1cde6, 0xc33707d6, 0xf4d50d87, 0x455a14ed,
   0xa9e3e905, 0xfcefa3f8, 0x676f02d9, 0x8d2a4c8a,
   0xfffa3942, 0x8771f681, 0x6d9d6122, 0xfde5380c,
   0xa4beea44, 0x4bdecfa9, 0xf6bb4b60, 0xbebfbc70,
   0x289b7ec6, 0xeaa127fa, 0xd4ef3085, 0x04881d05,
   0xd9d4d039, 0xe6db99e5, 0x1fa27cf8, 0xc4ac5665,
   0xf4292244, 0x432aff97, 0xab9423a7, 0xfc93a039,
   0x655b59c3, 0x8f0ccc92, 0xffeff47d, 0x85845dd1,
   0x6fa87e4f, 0xfe2ce6e0, 0xa3014314, 0x4e0811a1,
   0xf7537e82, 0xbd3af235, 0x2ad7d2bb, 0xeb86d391]

/-- The per-round left-rotation amounts of MD5. -/
def md5S : List Nat :=
  [7, 12, 17, 22, 7, 12, 17, 22, 7, 12, 17, 22, 7, 12, 17, 22,
   5, 9, 14, 20, 5, 9, 14, 20, 5, 9, 14, 20, 5, 9, 14, 20,
   4, 11, 16, 23, 4, 11, 16, 23, 4, 11, 16, 23, 4, 11, 16, 23,
   6, 10, 15, 21, 6, 10, 15, 21, 6, 10, 15, 21, 6, 10, 15, 21]

/-- Decode a 64-byte block into 16 little-endian 32-bit words. -/
def md5Words (block : List Nat) : List Nat :=
  (List.range 16).map (fun j =>
    block.getD (4 * j) 0 + block.getD (4 * j + 1) 0 * 256 +
    block.getD (4 * j + 2) 0 * 65536 + block.getD (4 * j + 3) 0 * 16777216)

/-- One of the 64 MD5 rounds on the state (a, b, c, d). -/
def md5Round (M : List Nat) (st : Nat × Nat × Nat × Nat) (i : Nat) :
    Nat × Nat × Nat × Nat :=
  let a := st.1
  let b := st.2.1
  let c := st.2.2.1
  let d := st.2.2.2
  let fg : Nat × Nat :=
    if i < 16 then ((b &&& c) ||| (not32 b &&& d), i)
    else if i < 32 then ((d &&& b) ||| (not32 d &&& c), (5 * i + 1) % 16)
    else if i < 48 then (b ^^^ c ^^^ d, (3 * i + 5) % 16)
    else (c ^^^ (b ||| not32 d), (7 * i) % 16)
  let f := (fg.1 + a + md5K.getD i 0 + M.getD fg.2 0) % UINT32_MOD
  (d, (b + rotl32 f (md5S.getD i 0)) % UINT32_MOD, b, c)

/-- Process one 64-byte block. -/
def md5Block (st : Nat × Nat × Nat × Nat) (block : List Nat) :
    Nat × Nat × Nat × Nat :=
  let M := md5Words block
  let r := (List.range 64).foldl (md5Round M) st
  ((st.1 + r.1) % UINT32_MOD, (st.2.1 + r.2.1) % UINT32_MOD,
   (st.2.2.1 + r.2.2.1) % UINT32_MOD, (st.2.2.2 + r.2.2.2) % UINT32_MOD)

/-- The `n` low-order bytes of `x`, little endian. -/
def toLEBytes (n x : Nat) : List Nat :=
  (List.range n).map (fun i => (x >>> (8 * i)) % 256)

/-- MD5 padding: a 0x80 byte, zeros to 56 mod 64, and the 64-bit bit length. -/
def md5Pad (msg : List Nat) : List Nat :=
  let zeros := (120 - ((msg.length + 1) % 64)) % 64
  msg ++ [128] ++ List.replicate zeros 0 ++
    toLEBytes 8 ((8 * msg.length) % 18446744073709551616)

/-- The 16-byte MD5 digest of a byte string. -/
def md5Bytes (msg : List Nat) : List Nat :=
  let padded := md5Pad msg
  let blocks := (List.range (padded.length / 64)).map
    (fun i => (padded.drop (64 * i)).take 64)
  let st := blocks.foldl md5Block (0x67452301, 0xefcdab89, 0x98badcfe, 0x10325476)
  toLEBytes 4 st.1 ++ toLEBytes 4 st.2.1 ++ toLEBytes 4 st.2.2.1 ++ toLEBytes 4 st.2.2.2

def hexDigitChar (n : Nat) : Char := "0123456789abcdef".toList.getD n 'x'

/-- Lowercase hexadecimal rendering of a byte string. -/
def bytesToHex (bs : List Nat) : String :=
  String.mk (bs.foldr (fun b acc => hexDigitChar (b / 16) :: hexDigitChar (b % 16) :: acc) [])

/-- `calculate_md5` from main.py: hashlib.md5(data.encode()).hexdigest(). -/
def calculate_md5 (data : String) : String :=
  bytesToHex (md5Bytes (data.toUTF8.toList.map UInt8.toNat))

/-! ## Hash chain and credential store -/

/-- `USERS` from main.py: the fixed username/password map. -/
def USERS : List (String × String) := [("tinikov", "SU(3)group")]

/-- `calculate_ha1` from main.py. -/
def calculate_ha1 (username realm password : String) : String :=
  calculate_md5 (username ++ ":" ++ realm ++ ":" ++ password)

/-- `calculate_ha2` from main.py. -/
def calculate_ha2 (method uri : String) : String :=
  calculate_md5 (method ++ ":" ++ uri)

/-- `calculate_response` from main.py. -/
def calculate_response (ha1 nonce ha2 : String) : String :=
  calculate_md5 (ha1 ++ ":" ++ nonce ++ ":" ++ ha2)

/-! ## Header token parsing (trim_str and the parsing loop of auth) -/

/-- Result of the Python expression `eval(s)` as used by trim_str: a string
value, a non-string value (carried by its str() rendering), or a raised
exception. -/
inductive PyEval where
  | vstr (s : String)
  | vother (txt : String)
  | raised
deriving DecidableEq

/-- The single-quote character. -/
def squote : Char := Char.ofNat 39

/-- The split of a character list at every occurrence of `sep`, matching the
Python str.split(sep) semantics (adjacent separators produce empty pieces;
the empty string splits to one empty piece). -/
def splitChars (sep : Char) : List Char → List (List Char)
  | [] => [[]]
  | c :: cs =>
    let r := splitChars sep cs
    if c == sep then [] :: r
    else (c :: r.headD []) :: r.tail

/-- Python str.split(sep) for a one-character separator, as used on the
authorization header (split on a space) and on each token (split on an
equals sign). -/
def splitOnChar (sep : Char) (s : String) : List String :=
  (splitChars sep s.toList).map String.mk

/-- Python str.replace(",", ""): remove every comma. -/
def stripCommas (s : String) : String :=
  String.mk (s.toList.filter (fun c => !(c == ',')))

/-- If `s` is a quoted string literal delimited by `q` whose interior holds
neither a quote nor a backslash, return the interior. -/
def stripQuotes (q : Char) (s : String) : Option String :=
  match s.toList with
  | [] => none
  | c :: cs =>
    if !cs.isEmpty && c == q && cs.getLast? == some q &&
        !cs.dropLast.any (fun ch => ch == q || ch == '\\') then
      some (String.mk cs.dropLast)
    else none

/-- A nonempty decimal digit string without a forbidden leading zero, i.e. a
Python integer literal. -/
def isIntLiteral (s : String) : Bool :=
  match s.toList with
  | [] => false
  | c :: cs => (c :: cs).all Char.isDigit && (cs.isEmpty || !(c == '0'))

/-- `trim_str` from main.py: `str.replace(",", "")` followed by `eval`.  The
source feeds the comma-stripped token value of an untrusted header to the
generic Python expression evaluator.  Full `eval` is not embeddable; we model
the fragment it is exercised on: a clean quoted string literal (double or
single quotes) evaluates to its contents, a decimal integer literal evaluates
to a non-string value, and every other input is modelled as raising (accurate
for bare undefined names and malformed literals, the inputs the theorems
below evaluate it on; `eval` succeeds on further expression forms that this
model conservatively maps to `raised`). -/
def trim_str (s : String) : PyEval :=
  let s := stripCommas s
  match stripQuotes '"' s with
  | some inner => .vstr inner
  | none =>
    match stripQuotes squote s with
    | some inner => .vstr inner
    | none => if isIntLiteral s then .vother s else .raised

/-- A Python value held by one of the parsing variables of auth: a flag
telling whether it is a str, and its str() rendering. -/
structure PyVal where
  isStr : Bool
  txt : String
deriving DecidableEq

/-- The three variables assigned by the parsing loop of auth, initialised to
empty strings. -/
structure ParsedAuth where
  username : PyVal := ⟨true, ""⟩
  nonce : PyVal := ⟨true, ""⟩
  response : PyVal := ⟨true, ""⟩
deriving DecidableEq

/-- Turn an `eval` outcome into a Python value; `none` propagates the raised
exception. -/
def PyEval.toVal : PyEval → Option PyVal
  | .vstr s => some ⟨true, s⟩
  | .vother t => some ⟨false, t⟩
  | .raised => none

/-- Python str.startswith. -/
def startsWithKey (key i : String) : Bool :=
  key.toList.isPrefixOf i.toList

/-- One iteration of the parsing loop of auth over a space-separated token:
each matching key assigns the corresponding variable to
trim_str(token.split("=")[1]); a raised exception aborts the request. -/
def parseToken (st : ParsedAuth) (i : String) : Option ParsedAuth := do
  let st ←
    if startsWithKey "username=" i then
      (trim_str ((splitOnChar '=' i).getD 1 "")).toVal.map fun v => { st with username := v }
    else pure st
  let st ←
    if startsWithKey "nonce=" i then
      (trim_str ((splitOnChar '=' i).getD 1 "")).toVal.map fun v => { st with nonce := v }
    else pure st
  let st ←
    if startsWithKey "response=" i then
      (trim_str ((splitOnChar '=' i).getD 1 "")).toVal.map fun v => { st with response := v }
    else pure st
  pure st

/-- The parsing loop of auth: fold over auth_header.split(" "). -/
def parse_header (h : String) : Option ParsedAuth :=
  (splitOnChar ' ' h).foldlM parseToken {}

/-- The WWW-Authenticate challenge value built by auth. -/
def challengeHeader (realm nonce : String) : String :=
  "Digest realm=\"" ++ realm ++ "\",nonce=\"" ++ nonce ++ "\""

/-- Outcome of the protected endpoint: the SUCCESS body, the 401 response
carrying its challenge header, or an uncaught exception (HTTP 500, no
challenge header). -/
inductive AuthResult where
  | success
  | unauthorized (challenge : String)
  | error
deriving DecidableEq

/-- `auth` from main.py, the GET /secret handler.  The randomly generated
nonce is passed in as `fresh_nonce` (randomness modelled as an oracle
input). -/
def auth (auth_header : Option String) (method uri : String)
    (fresh_nonce : String) : AuthResult :=
  let realm := "tinikov-webserver"
  match auth_header with
  | some header =>
    match parse_header header with
    | none => .error
    | some p =>
      match (if p.username.isStr then USERS.lookup p.username.txt else none) with
      | some password =>
        let ha1 := calculate_ha1 p.username.txt realm password
        let ha2 := calculate_ha2 method uri
        let expected_response := calculate_response ha1 p.nonce.txt ha2
        if p.response.isStr && p.response.txt == expected_response then .success
        else .unauthorized (challengeHeader realm fresh_nonce)
      | none => .unauthorized (challengeHeader realm fresh_nonce)
  | none => .unauthorized (challengeHeader realm fresh_nonce)

/-! ## JSON/Python values of a decoded request body -/

/-- A Python value decoded from a JSON request body.  Containers appear in
the modelled code only through their truthiness and their type, so arrays
and objects are carried by their emptiness flag.  JSON floats are modelled
as exact rationals. -/
inductive JValue where
  | jnull
  | jbool (b : Bool)
  | jint (n : Int)
  | jnum (q : ℚ)
  | jstr (s : String)
  | jarr (isEmpty : Bool)
  | jobj (isEmpty : Bool)
deriving DecidableEq

/-- Python truthiness. -/
def pyTruthy : JValue → Bool
  | .jnull => false
  | .jbool b => b
  | .jint n => decide (n ≠ 0)
  | .jnum q => decide (q ≠ 0)
  | .jstr s => decide (s ≠ "")
  | .jarr e => !e
  | .jobj e => !e

/-- isinstance(v, int); Python bool is a subclass of int. -/
def pyIsInt : JValue → Bool
  | .jbool _ => true
  | .jint _ => true
  | _ => false

/-- isinstance(v, (int, float)). -/
def pyIsNum : JValue → Bool
  | .jbool _ => true
  | .jint _ => true
  | .jnum _ => true
  | _ => false

/-- The numeric value of a value for which pyIsInt holds. -/
def pyInt : JValue → Int
  | .jbool b => if b then 1 else 0
  | .jint n => n
  | _ => 0

/-- The numeric value of a value for which pyIsNum holds. -/
def pyNum : JValue → ℚ
  | .jbool b => if b then 1 else 0
  | .jint n => n
  | .jnum q => q
  | _ => 0

/-- The numeric value of a Python value where numeric comparison or
arithmetic with it is defined; `none` models a TypeError. -/
def pyNumVal : JValue → Option ℚ
  | .jbool b => some (if b then 1 else 0)
  | .jint n => some n
  | .jnum q => some q
  | _ => none

/-- The Python conversion float(v); `none` models a raised exception.  On
strings float() parses a numeral, but the only string value that can reach
the conversion in main.py is the empty string (truthy strings are rejected
by the validator first), on which float() raises ValueError. -/
def pyFloat : JValue → Option ℚ
  | .jbool b => some (if b then 1 else 0)
  | .jint n => some n
  | .jnum q => some q
  | _ => none

/-- The value stored when a Python number is written back through the
INTEGER-affinity amount column and read again: bools and integral floats
come back as integers. -/
def JValue.ofRat (q : ℚ) : JValue :=
  if q.den = 1 then .jint q.num else .jnum q

/-- A decoded JSON object body: an association list of string keys. -/
abbrev Payload := List (String × JValue)

def pyKeys (p : Payload) : List String := p.map Prod.fst

/-- dict.get(k): the value under k, or None when the key is absent. -/
def pyGet (p : Payload) (k : String) : JValue :=
  (p.lookup k).getD .jnull

/-- dict.get(k, d): the value under k, or the default d only when the key is
absent. -/
def pyGetD (p : Payload) (k : String) (d : JValue) : JValue :=
  (p.lookup k).getD d

/-- The underlying string of a string value. -/
def asString : JValue → Option String
  | .jstr s => some s
  | _ => none

/-! ## Validation layer -/

def goodKeyOk (key : String) : Bool := key == "name" || key == "amount"

/-- `check_good_keys` from main.py. -/
def check_good_keys (good : Payload) : Bool :=
  if !(pyKeys good).all goodKeyOk then false
  else if !pyTruthy (pyGet good "name") then false
  else if pyTruthy (pyGet good "amount") &&
      (!pyIsInt (pyGet good "amount") || decide (pyInt (pyGet good "amount") ≤ 0)) then false
  else true

def saleKeyOk (key : String) : Bool :=
  key == "name" || key == "amount" || key == "price"

/-- `check_sale_keys` from main.py. -/
def check_sale_keys (sale : Payload) : Bool :=
  if !(pyKeys sale).all saleKeyOk then false
  else if !pyTruthy (pyGet sale "name") then false
  else if pyTruthy (pyGet sale "amount") &&
      (!pyIsInt (pyGet sale "amount") || decide (pyInt (pyGet sale "amount") ≤ 0)) then false
  else if pyTruthy (pyGet sale "price") &&
      (!pyIsNum (pyGet sale "price") || decide (pyNum (pyGet sale "price") ≤ 0)) then false
  else true

/-! ## The store -/

/-- A row of the Goods table.  The name is a string per the data model (the
name field of every request body in the API is a string); the amount column
holds whatever Python value the handler assigned, since SQLModel table
models do not validate assignments; the price column is never written by
any handler and keeps its default NULL. -/
structure Good where
  name : String
  amount : JValue
  price : Option ℚ := none
deriving DecidableEq

/-- The persistent state: the Goods rows (in insertion order) and the
numeric value of the total_sales row of the GlobalData table (absent until
the first sale; GlobalData stores str(value), and str/float round-trip
exactly). -/
structure Store where
  goods : List Good
  totalSales : Option ℚ
deriving DecidableEq

def emptyStore : Store := { goods := [], totalSales := none }

/-- The rows produced by select(Goods).where(Goods.name == name). -/
def selectGoods (goods : List Good) (name : String) : List Good :=
  goods.filter (fun g => g.name == name)

/-- Result.one_or_none(): `some none` for no row, `some (some r)` for one
row, and `none` for the MultipleResultsFound exception. -/
def one_or_none {α : Type} : List α → Option (Option α)
  | [] => some none
  | [a] => some (some a)
  | _ => none

/-- Overwrite the amount of the (unique) row named `name`. -/
def setAmount (goods : List Good) (name : String) (v : JValue) : List Good :=
  goods.map (fun g => if g.name == name then { g with amount := v } else g)

/-- The amount value as stored by the INTEGER-affinity column: bools become
0/1, integral floats become integers, null and (non-numeric) strings are
kept, and container values cannot be bound as SQL parameters at all
(`none`, an error). -/
def storeAmount : JValue → Option JValue
  | .jnull => some .jnull
  | .jbool b => some (.jint (if b then 1 else 0))
  | .jint n => some (.jint n)
  | .jnum q => some (JValue.ofRat q)
  | .jstr s => some (.jstr s)
  | _ => none

/-- Python addition of two number-like values, `none` for a TypeError.  (The
one non-numeric case Python itself would accept, concatenating a string
amount with a string increment, changes no stored value since the only
reachable string amount is the empty string.) -/
def pyAdd (a b : JValue) : Option ℚ :=
  match pyNumVal a, pyNumVal b with
  | some x, some y => some (x + y)
  | _, _ => none

/-- `update_total_sales` from main.py, acting on the modelled total_sales
value: add to the existing accumulator, or create it at the given value. -/
def update_total_sales (totalSales : Option ℚ) (amount_to_add : ℚ) : Option ℚ :=
  match totalSales with
  | some current => some (current + amount_to_add)
  | none => some amount_to_add

/-- `get_total_sales` from main.py: the accumulator value, or 0.0 if absent. -/
def get_total_sales (s : Store) : ℚ :=
  match s.totalSales with
  | some v => v
  | none => 0

/-- `post_goods` from main.py, the POST /v1/stocks handler, applied to an
already-decoded body.  `none` is the ERROR response or an uncaught
exception; in both cases nothing is committed. -/
def post_goods (s : Store) (good_to_add : Payload) : Option Store :=
  if !check_good_keys good_to_add then none
  else
    match asString (pyGet good_to_add "name") with
    | none => none
    | some name =>
      match one_or_none (selectGoods s.goods name) with
      | none => none
      | some (some existing_good) =>
        match pyAdd existing_good.amount (pyGetD good_to_add "amount" (.jint 1)) with
        | none => none
        | some q => some { s with goods := setAmount s.goods name (JValue.ofRat q) }
      | some none =>
        match storeAmount (pyGetD good_to_add "amount" (.jint 1)) with
        | none => none
        | some v => some { s with goods := s.goods ++ [{ name := name, amount := v }] }

/-- `get_stock` from main.py, the GET /v1/stocks/name handler: the name/amount
pair of the row, or the name paired with integer 0 when there is no row. -/
def get_stock (s : Store) (name : String) : Option (String × JValue) :=
  match one_or_none (selectGoods s.goods name) with
  | none => none
  | some (some existing_good) => some (existing_good.name, existing_good.amount)
  | some none => some (name, .jint 0)

/-- `get_stocks` from main.py, the GET /v1/stocks handler: all rows sorted by
name, keeping those with a truthy amount. -/
def get_stocks (s : Store) : List (String × JValue) :=
  ((s.goods.mergeSort (fun g1 g2 => g1.name ≤ g2.name)).filterMap
    (fun g => if pyTruthy g.amount then some (g.name, g.amount) else none))

/-- `sell_goods` from main.py, the POST /v1/sales handler, applied to an
already-decoded body.  The comparison of the current amount with the amount
to sell is Python numeric comparison (`none` on a TypeError; Python would
also compare two strings, but every such path still dies at the
sale-amount multiplication before anything is written). -/
def sell_goods (s : Store) (good_to_sell : Payload) : Option Store :=
  if !check_sale_keys good_to_sell then none
  else
    match asString (pyGet good_to_sell "name") with
    | none => none
    | some name =>
      match one_or_none (selectGoods s.goods name) with
      | none => none
      | some none => none
      | some (some existing_good) =>
        let amount_to_sell := pyGetD good_to_sell "amount" (.jint 1)
        match pyNumVal existing_good.amount, pyNumVal amount_to_sell with
        | some current, some amt =>
          if current ≥ amt then
            match pyFloat (pyGetD good_to_sell "price" (.jnum 0)) with
            | none => none
            | some price =>
              let sale_amount := price * amt
              some { goods := setAmount s.goods name (JValue.ofRat (current - amt)),
                     totalSales := update_total_sales s.totalSales sale_amount }
          else none
        | _, _ => none

/-- `delete_goods` from main.py, the DELETE /v1/stocks handler: every Goods
row is deleted; the GlobalData table is untouched.  (The stray class
attribute assignment Goods.sales = 0.0 in the source touches no record and
has no modelled effect.) -/
def delete_goods (s : Store) : Store :=
  { goods := [], totalSales := s.totalSales }

/-! ## Shapes used by the claims -/

/-- A stock body with the given name and integer amount. -/
def stockPayload (name : String) (amount : Int) : Payload :=
  [("name", .jstr name), ("amount", .jint amount)]

/-- A sale body with the given name, integer amount and float price. -/
def salePayload (name : String) (amount : Int) (price : ℚ) : Payload :=
  [("name", .jstr name), ("amount", .jint amount), ("price", .jnum price)]

/-- Does this row satisfy the documented invariant, i.e. is its amount a
non-negative number? -/
def amountNonneg (g : Good) : Bool :=
  match pyNumVal g.amount with
  | some q => decide (0 ≤ q)
  | none => false

/-! ## Helper lemmas -/

theorem pyNumVal_ofRat (q : ℚ) : pyNumVal (JValue.ofRat q) = some q := by
  unfold JValue.ofRat
  split
  · rename_i h
    simp only [pyNumVal, Option.some.injEq]
    exact (Rat.den_eq_one_iff q).mp h
  · rfl

theorem ofRat_intCast (n : ℤ) : JValue.ofRat (n : ℚ) = .jint n := by
  unfold JValue.ofRat
  rw [if_pos (Rat.den_intCast n)]
  rw [Rat.num_intCast]

theorem ofRat_intCast_add (a b : ℤ) :
    JValue.ofRat ((a : ℚ) + (b : ℚ)) = .jint (a + b) := by
  have : ((a : ℚ) + (b : ℚ)) = ((a + b : ℤ) : ℚ) := by push_cast; ring
  rw [this, ofRat_intCast]

/-! ## Claim theorems -/

/-- Claim C4 (code_bug evaluation).  The claim asks that a quoted token
value be interpreted strictly as a literal string, so that a token value
consisting of a string s in double quotes parses to exactly s.  The code
instead removes every comma (not only the trailing separator) and passes
the result to the Python expression evaluator: on the value consisting of
a,b in double quotes it yields the string ab, not a,b. -/
theorem trim_str_comma_eval_divergence :
    trim_str "\"a,b\"" = PyEval.vstr "ab" ∧ ("ab" : String) ≠ "a,b" := by
  decide

/-- Claim C7 (code_bug evaluation).  The claimed invariant is that after
any sequence of validated ledger operations every Good record has a
non-negative amount.  A single upsert with the accepted payload
name = w, amount = null (the validator skips falsy amounts, while
dict.get with a default of 1 only applies the default when the key is
absent) creates a Good row whose amount is null, which is not a
non-negative number. -/
theorem upsert_null_amount_breaks_invariant :
    check_good_keys [("name", .jstr "w"), ("amount", .jnull)] = true ∧
    post_goods emptyStore [("name", .jstr "w"), ("amount", .jnull)] =
      some { goods := [{ name := "w", amount := .jnull, price := none }],
             totalSales := none } ∧
    amountNonneg { name := "w", amount := .jnull, price := none } = false := by
  decide

/-- Claim C9.  clearStock deletes every Good record and nothing else:
afterwards getStock returns 0 for every name, and the total_sales
aggregate, hence getTotalSales, is unchanged. -/
theorem clear_stock_frame (s : Store) (n : String) :
    get_stock (delete_goods s) n = some (n, .jint 0) ∧
    get_total_sales (delete_goods s) = get_total_sales s :=
  ⟨rfl, rfl⟩

theorem goodKeyOk_iff (k : String) :
    goodKeyOk k = true ↔ k = "name" ∨ k = "amount" := by
  simp [goodKeyOk]

/-- Claim C6.  check_good_keys accepts a payload exactly when every key is
name or amount, the name value is truthy, and a truthy amount value is an
integer greater than 0; in particular amount 0 is accepted (falsy values
skip the range check), amount -1 is rejected, and an extra key is
rejected. -/
theorem validate_stock_characterization :
    (∀ good : Payload, check_good_keys good = true ↔
      ((∀ k ∈ pyKeys good, k = "name" ∨ k = "amount") ∧
        pyTruthy (pyGet good "name") = true ∧
        (pyTruthy (pyGet good "amount") = true →
          pyIsInt (pyGet good "amount") = true ∧ 0 < pyInt (pyGet good "amount")))) ∧
    check_good_keys [("name", .jstr "widget"), ("amount", .jint 3)] = true ∧
    check_good_keys [("name", .jstr "widget"), ("amount", .jint 0)] = true ∧
    check_good_keys [("name", .jstr "widget"), ("amount", .jint (-1))] = false ∧
    check_good_keys [("foo", .jstr "bar")] = false := by
  refine ⟨fun good => ?_, by decide, by decide, by decide, by decide⟩
  have hall : ((pyKeys good).all goodKeyOk = true) ↔
      (∀ k ∈ pyKeys good, k = "name" ∨ k = "amount") := by
    rw [List.all_eq_true]
    exact ⟨fun h k hk => (goodKeyOk_iff k).mp (h k hk),
           fun h k hk => (goodKeyOk_iff k).mpr (h k hk)⟩
  rw [← hall]
  unfold check_good_keys
  cases hA : (pyKeys good).all goodKeyOk <;>
    cases hB : pyTruthy (pyGet good "name") <;>
      cases hC : pyTruthy (pyGet good "amount") <;>
        cases hD : pyIsInt (pyGet good "amount") <;>
          by_cases hM : pyInt (pyGet good "amount") ≤ 0 <;>
            simp [hA, hB, hC, hD, hM]
  all_goals omega

theorem check_sale_keys_salePayload (nm : String) (n : ℤ) (p : ℚ)
    (hnm : nm ≠ "") (hn : 0 < n) (hp : 0 < p) :
    check_sale_keys (salePayload nm n p) = true := by
  have e1 : pyGet (salePayload nm n p) "name" = .jstr nm := rfl
  have e2 : pyGet (salePayload nm n p) "amount" = .jint n := rfl
  have e3 : pyGet (salePayload nm n p) "price" = .jnum p := rfl
  have hn0 : n ≠ 0 := by omega
  have hnle : ¬(n ≤ 0) := by omega
  have hp0 : p ≠ 0 := ne_of_gt hp
  have hple : ¬(p ≤ 0) := not_le.mpr hp
  unfold check_sale_keys
  rw [e1, e2, e3]
  simp [pyTruthy, pyIsInt, pyIsNum, pyInt, pyNum, pyKeys, salePayload, saleKeyOk,
    hnm, hn0, hnle, hp0, hple]

theorem update_total_sales_eq (s : Store) (x : ℚ) :
    update_total_sales s.totalSales x = some (get_total_sales s + x) := by
  cases h : s.totalSales <;> simp [update_total_sales, get_total_sales, h]

/-- Claim C1.  On an existing good of current (numeric) amount A, a valid
sale of amount n at price p with n no larger than A succeeds and performs
exactly the two updates: the amount of the good becomes A - n, and the
total_sales accumulator becomes its previous value (0 when absent, i.e. the
record is created) plus p * n.  Selling exactly the remaining stock (n = A)
is allowed and leaves the stored amount at integer 0.  The two writes are a
single transition of the model, matching the one-transaction commit of the
source. -/
theorem sell_success_effect (s : Store) (nm : String) (g : Good) (A : ℚ)
    (n : ℤ) (p : ℚ)
    (hnm : nm ≠ "") (hn : 0 < n) (hp : 0 < p)
    (hfind : one_or_none (selectGoods s.goods nm) = some (some g))
    (hA : pyNumVal g.amount = some A)
    (hge : (n : ℚ) ≤ A) :
    sell_goods s (salePayload nm n p) =
      some { goods := setAmount s.goods nm (JValue.ofRat (A - n)),
             totalSales := some (get_total_sales s + p * n) } ∧
    pyNumVal (JValue.ofRat (A - n)) = some (A - n) ∧
    ((n : ℚ) = A → JValue.ofRat (A - n) = .jint 0) := by
  refine ⟨?_, pyNumVal_ofRat _, fun hEq => ?_⟩
  · have e1 : asString (pyGet (salePayload nm n p) "name") = some nm := rfl
    have e2 : pyGetD (salePayload nm n p) "amount" (.jint 1) = .jint n := rfl
    have e3 : pyFloat (pyGetD (salePayload nm n p) "price" (.jnum 0)) = some p := rfl
    have e4 : pyNumVal (JValue.jint n) = some (n : ℚ) := rfl
    unfold sell_goods
    rw [check_sale_keys_salePayload nm n p hnm hn hp]
    simp only [Bool.not_true, Bool.false_eq_true, if_false, e1, hfind, e2, e3, hA, e4]
    rw [if_pos hge, update_total_sales_eq]
  · rw [← hEq, sub_self, ← Int.cast_zero, ofRat_intCast]

theorem sell_success_effect_witness :
    ("widget" : String) ≠ "" ∧ (0 : ℤ) < 3 ∧ (0 : ℚ) < ((2 : ℤ) : ℚ) ∧
    (sell_goods { goods := [{ name := "widget", amount := .jint 7 }], totalSales := none }
        (salePayload "widget" 3 ((2 : ℤ) : ℚ)) =
      some { goods := setAmount [{ name := "widget", amount := .jint 7 }] "widget"
               (JValue.ofRat (((7 : ℤ) : ℚ) - ((3 : ℤ) : ℚ))),
             totalSales := some (get_total_sales
               { goods := [{ name := "widget", amount := .jint 7 }], totalSales := none } +
               ((2 : ℤ) : ℚ) * ((3 : ℤ) : ℚ)) } ∧
     pyNumVal (JValue.ofRat (((7 : ℤ) : ℚ) - ((3 : ℤ) : ℚ))) =
       some (((7 : ℤ) : ℚ) - ((3 : ℤ) : ℚ)) ∧
     (((3 : ℤ) : ℚ) = ((7 : ℤ) : ℚ) →
       JValue.ofRat (((7 : ℤ) : ℚ) - ((3 : ℤ) : ℚ)) = .jint 0)) :=
  ⟨by decide, by decide, Int.cast_pos.mpr (by decide),
   sell_success_effect
     { goods := [{ name := "widget", amount := .jint 7 }], totalSales := none }
     "widget" { name := "widget", amount := .jint 7 } ((7 : ℤ) : ℚ) 3 ((2 : ℤ) : ℚ)
     (by decide) (by decide) (Int.cast_pos.mpr (by decide))
     (by decide) rfl (Int.cast_le.mpr (by decide))⟩

/-- Claim C2.  A sale naming a good with no row, and a sale on an existing
good whose (numeric) current amount is strictly below the requested amount,
both return the generic failure: the handler answers raise_error before any
write, so nothing is committed and the store (every amount and the
total_sales record alike) is left unchanged, which the model renders as the
`none` outcome. -/
theorem sell_failure_no_mutation (s : Store) (nm : String) (n : ℤ) (p : ℚ) :
    (one_or_none (selectGoods s.goods nm) = some none →
      sell_goods s (salePayload nm n p) = none) ∧
    (∀ g A, one_or_none (selectGoods s.goods nm) = some (some g) →
      pyNumVal g.amount = some A → A < (n : ℚ) →
      sell_goods s (salePayload nm n p) = none) := by
  have e1 : asString (pyGet (salePayload nm n p) "name") = some nm := rfl
  have e2 : pyGetD (salePayload nm n p) "amount" (.jint 1) = .jint n := rfl
  have e4 : pyNumVal (JValue.jint n) = some (n : ℚ) := rfl
  constructor
  · intro hfind
    by_cases hck : check_sale_keys (salePayload nm n p) = true
    · unfold sell_goods
      rw [hck]
      simp only [Bool.not_true, Bool.false_eq_true, if_false, e1, hfind]
    · rw [Bool.not_eq_true] at hck
      unfold sell_goods
      rw [hck]
      simp only [Bool.not_false, if_true]
  · intro g A hfind hA hlt
    by_cases hck : check_sale_keys (salePayload nm n p) = true
    · unfold sell_goods
      rw [hck]
      simp only [Bool.not_true, Bool.false_eq_true, if_false, e1, hfind, e2, hA, e4]
      rw [if_neg (not_le.mpr hlt)]
    · rw [Bool.not_eq_true] at hck
      unfold sell_goods
      rw [hck]
      simp only [Bool.not_false, if_true]

theorem sell_failure_no_mutation_witness :
    (one_or_none (selectGoods (emptyStore).goods "nope") = some none ∧
      sell_goods emptyStore (salePayload "nope" 1 ((1 : ℤ) : ℚ)) = none) ∧
    (one_or_none (selectGoods [{ name := "widget", amount := .jint 0 }] "widget") =
        some (some { name := "widget", amount := .jint 0 }) ∧
      ((0 : ℤ) : ℚ) < ((1 : ℤ) : ℚ) ∧
      sell_goods { goods := [{ name := "widget", amount := .jint 0 }], totalSales := some 3 }
        (salePayload "widget" 1 ((1 : ℤ) : ℚ)) = none) :=
  ⟨⟨by decide,
    (sell_failure_no_mutation emptyStore "nope" 1 ((1 : ℤ) : ℚ)).1 (by decide)⟩,
   ⟨by decide, Int.cast_lt.mpr (by decide),
    (sell_failure_no_mutation
        { goods := [{ name := "widget", amount := .jint 0 }], totalSales := some 3 }
        "widget" 1 ((1 : ℤ) : ℚ)).2
      { name := "widget", amount := .jint 0 } ((0 : ℤ) : ℚ)
      (by decide) rfl (Int.cast_lt.mpr (by decide))⟩⟩

theorem check_sale_keys_salePayload_zero (nm : String) (p : ℚ)
    (hnm : nm ≠ "") (hp : 0 < p) :
    check_sale_keys (salePayload nm 0 p) = true := by
  have e1 : pyGet (salePayload nm 0 p) "name" = .jstr nm := rfl
  have e2 : pyGet (salePayload nm 0 p) "amount" = .jint 0 := rfl
  have e3 : pyGet (salePayload nm 0 p) "price" = .jnum p := rfl
  have hp0 : p ≠ 0 := ne_of_gt hp
  have hple : ¬(p ≤ 0) := not_le.mpr hp
  unfold check_sale_keys
  rw [e1, e2, e3]
  simp [pyTruthy, pyIsInt, pyIsNum, pyInt, pyNum, pyKeys, salePayload, saleKeyOk,
    hnm, hp0, hple]

/-- Claim C10.  A sale body whose amount key is present with the integer
value 0 passes validation (0 is falsy, so the range check is skipped), and
on an existing good with non-negative numeric amount the sale succeeds as a
no-op: the sufficiency comparison is made against 0 and passes, the stored
amount keeps its numeric value A, and the total_sales accumulator gains
price * 0 = 0 (it is created holding 0.0 when absent, since the result is
some of the previous total, 0 for an absent record). -/
theorem zero_amount_sale_noop (s : Store) (nm : String) (g : Good) (A p : ℚ)
    (hnm : nm ≠ "") (hp : 0 < p)
    (hfind : one_or_none (selectGoods s.goods nm) = some (some g))
    (hA : pyNumVal g.amount = some A) (hA0 : 0 ≤ A) :
    check_sale_keys (salePayload nm 0 p) = true ∧
    sell_goods s (salePayload nm 0 p) =
      some { goods := setAmount s.goods nm (JValue.ofRat A),
             totalSales := some (get_total_sales s) } ∧
    pyNumVal (JValue.ofRat A) = some A := by
  refine ⟨check_sale_keys_salePayload_zero nm p hnm hp, ?_, pyNumVal_ofRat _⟩
  have e1 : asString (pyGet (salePayload nm 0 p) "name") = some nm := rfl
  have e2 : pyGetD (salePayload nm 0 p) "amount" (.jint 1) = .jint 0 := rfl
  have e3 : pyFloat (pyGetD (salePayload nm 0 p) "price" (.jnum 0)) = some p := rfl
  have e4 : pyNumVal (JValue.jint 0) = some ((0 : ℤ) : ℚ) := rfl
  have hge : ((0 : ℤ) : ℚ) ≤ A := by rw [Int.cast_zero]; exact hA0
  unfold sell_goods
  rw [check_sale_keys_salePayload_zero nm p hnm hp]
  simp only [Bool.not_true, Bool.false_eq_true, if_false, e1, hfind, e2, e3, hA, e4]
  rw [if_pos hge, update_total_sales_eq, Int.cast_zero, sub_zero, mul_zero, add_zero]

theorem zero_amount_sale_noop_witness :
    ("widget" : String) ≠ "" ∧ (0 : ℚ) < ((2 : ℤ) : ℚ) ∧ (0 : ℚ) ≤ ((5 : ℤ) : ℚ) ∧
    (check_sale_keys (salePayload "widget" 0 ((2 : ℤ) : ℚ)) = true ∧
     sell_goods { goods := [{ name := "widget", amount := .jint 5 }], totalSales := none }
         (salePayload "widget" 0 ((2 : ℤ) : ℚ)) =
       some { goods := setAmount [{ name := "widget", amount := .jint 5 }] "widget"
                (JValue.ofRat ((5 : ℤ) : ℚ)),
              totalSales := some (get_total_sales
                { goods := [{ name := "widget", amount := .jint 5 }], totalSales := none }) } ∧
     pyNumVal (JValue.ofRat ((5 : ℤ) : ℚ)) = some ((5 : ℤ) : ℚ)) :=
  ⟨by decide, Int.cast_pos.mpr (by decide), Int.cast_nonneg.mpr (by decide),
   zero_amount_sale_noop
     { goods := [{ name := "widget", amount := .jint 5 }], totalSales := none }
     "widget" { name := "widget", amount := .jint 5 } ((5 : ℤ) : ℚ) ((2 : ℤ) : ℚ)
     (by decide) (Int.cast_pos.mpr (by decide))
     (by decide) rfl (Int.cast_nonneg.mpr (by decide))⟩

theorem check_good_keys_stockPayload (nm : String) (a : ℤ)
    (hnm : nm ≠ "") (ha : 0 < a) :
    check_good_keys (stockPayload nm a) = true := by
  have e1 : pyGet (stockPayload nm a) "name" = .jstr nm := rfl
  have e2 : pyGet (stockPayload nm a) "amount" = .jint a := rfl
  have ha0 : a ≠ 0 := by omega
  have hale : ¬(a ≤ 0) := by omega
  unfold check_good_keys
  rw [e1, e2]
  simp [pyTruthy, pyIsInt, pyInt, pyKeys, stockPayload, goodKeyOk, hnm, ha0, hale]

theorem selectGoods_append_single (gs : List Good) (n : String) (v : JValue)
    (habs : selectGoods gs n = []) :
    selectGoods (gs ++ [{ name := n, amount := v }]) n =
      [{ name := n, amount := v }] := by
  unfold selectGoods at habs ⊢
  rw [List.filter_append, habs]
  simp

theorem setAmount_append_single (gs : List Good) (n : String) (v w : JValue)
    (habs : selectGoods gs n = []) :
    setAmount (gs ++ [{ name := n, amount := v }]) n w =
      gs ++ [{ name := n, amount := w }] := by
  have hno : ∀ g ∈ gs, ¬((fun g : Good => g.name == n) g = true) :=
    List.filter_eq_nil_iff.mp habs
  unfold setAmount
  rw [List.map_append]
  have hid : List.map
      (fun g : Good => if g.name == n then { g with amount := w } else g) gs = gs := by
    have := List.map_congr_left
      (f := fun g : Good => if g.name == n then { g with amount := w } else g)
      (g := id) (l := gs)
      (fun g hg => by
        simp only [id]
        exact if_neg (fun hc => hno g hg hc))
    rw [this, List.map_id]
  rw [hid]
  simp

/-- Claim C8.  For a name with no row in the store and positive integer
amounts a and b, upserting (n, a) creates the row with amount a, upserting
(n, b) then increments it to a + b, and getStock afterwards reports a + b;
getStock of a name with no row reports 0. -/
theorem upsert_accumulates (s : Store) (n : String) (a b : ℤ)
    (hn : n ≠ "") (ha : 0 < a) (hb : 0 < b)
    (habs : selectGoods s.goods n = []) :
    post_goods s (stockPayload n a) =
      some { s with goods := s.goods ++ [{ name := n, amount := .jint a }] } ∧
    post_goods { s with goods := s.goods ++ [{ name := n, amount := .jint a }] }
        (stockPayload n b) =
      some { s with goods := s.goods ++ [{ name := n, amount := .jint (a + b) }] } ∧
    get_stock { s with goods := s.goods ++ [{ name := n, amount := .jint (a + b) }] } n =
      some (n, .jint (a + b)) ∧
    get_stock s n = some (n, .jint 0) := by
  have e1a : asString (pyGet (stockPayload n a) "name") = some n := rfl
  have e1b : asString (pyGet (stockPayload n b) "name") = some n := rfl
  have e2a : pyGetD (stockPayload n a) "amount" (.jint 1) = .jint a := rfl
  have e2b : pyGetD (stockPayload n b) "amount" (.jint 1) = .jint b := rfl
  refine ⟨?_, ?_, ?_, ?_⟩
  · unfold post_goods
    rw [check_good_keys_stockPayload n a hn ha]
    simp only [Bool.not_true, Bool.false_eq_true, if_false, e1a, e2a, habs]
    rfl
  · unfold post_goods
    rw [check_good_keys_stockPayload n b hn hb]
    simp only [Bool.not_true, Bool.false_eq_true, if_false, e1b, e2b,
      selectGoods_append_single s.goods n (.jint a) habs]
    have hadd : pyAdd (JValue.jint a) (JValue.jint b) = some ((a : ℚ) + (b : ℚ)) := rfl
    simp only [one_or_none, hadd, ofRat_intCast_add,
      setAmount_append_single s.goods n (.jint a) (.jint (a + b)) habs]
  · unfold get_stock
    rw [selectGoods_append_single s.goods n (.jint (a + b)) habs]
    rfl
  · unfold get_stock
    rw [habs]
    rfl

theorem upsert_accumulates_witness :
    ("widget" : String) ≠ "" ∧ (0 : ℤ) < 5 ∧ (0 : ℤ) < 2 ∧
    selectGoods emptyStore.goods "widget" = [] ∧
    (post_goods emptyStore (stockPayload "widget" 5) =
      some { emptyStore with goods := emptyStore.goods ++ [{ name := "widget", amount := .jint 5 }] } ∧
    post_goods { emptyStore with goods := emptyStore.goods ++ [{ name := "widget", amount := .jint 5 }] }
        (stockPayload "widget" 2) =
      some { emptyStore with goods := emptyStore.goods ++ [{ name := "widget", amount := .jint (5 + 2) }] } ∧
    get_stock { emptyStore with goods := emptyStore.goods ++ [{ name := "widget", amount := .jint (5 + 2) }] } "widget" =
      some ("widget", .jint (5 + 2)) ∧
    get_stock emptyStore "widget" = some ("widget", .jint 0)) :=
  ⟨by decide, by decide, by decide, rfl,
   upsert_accumulates emptyStore "widget" 5 2 (by decide) (by decide) (by decide) rfl⟩

/-- Claim C5.  The three hash-chain functions are deterministic (equal
inputs give equal digests; the embedding is a pure function, so this is
recorded as congruence in all arguments) and each one hashes exactly its
fields joined by a literal colon separator: credentialHash hashes
username:realm:secret, requestHash hashes method:uri, and responseHash
hashes H1:nonce:H2. -/
theorem hash_chain_colon_concat :
    (∀ u r pw, calculate_ha1 u r pw =
      calculate_md5 (String.intercalate ":" [u, r, pw])) ∧
    (∀ m uri, calculate_ha2 m uri =
      calculate_md5 (String.intercalate ":" [m, uri])) ∧
    (∀ h1 nonce h2, calculate_response h1 nonce h2 =
      calculate_md5 (String.intercalate ":" [h1, nonce, h2])) ∧
    (∀ u r pw u2 r2 pw2, u = u2 → r = r2 → pw = pw2 →
      calculate_ha1 u r pw = calculate_ha1 u2 r2 pw2) ∧
    (∀ m uri m2 uri2, m = m2 → uri = uri2 →
      calculate_ha2 m uri = calculate_ha2 m2 uri2) ∧
    (∀ h1 nonce h2 h1b nonceb h2b, h1 = h1b → nonce = nonceb → h2 = h2b →
      calculate_response h1 nonce h2 = calculate_response h1b nonceb h2b) :=
  ⟨fun _ _ _ => rfl, fun _ _ => rfl, fun _ _ _ => rfl,
   fun _ _ _ _ _ _ hu hr hp => by rw [hu, hr, hp],
   fun _ _ _ _ hm hu => by rw [hm, hu],
   fun _ _ _ _ _ _ h1 h2 h3 => by rw [h1, h2, h3]⟩

theorem hash_chain_colon_concat_witness :
    ("tinikov" : String) = "tinikov" ∧
    calculate_ha1 "tinikov" "tinikov-webserver" "SU(3)group" =
      calculate_ha1 "tinikov" "tinikov-webserver" "SU(3)group" ∧
    calculate_response "h1" "abc" "h2" = calculate_response "h1" "abc" "h2" :=
  ⟨rfl,
   hash_chain_colon_concat.2.2.2.1 "tinikov" "tinikov-webserver" "SU(3)group"
     "tinikov" "tinikov-webserver" "SU(3)group" rfl rfl rfl,
   hash_chain_colon_concat.2.2.2.2.2 "h1" "abc" "h2" "h1" "abc" "h2" rfl rfl rfl⟩

theorem validate_stock_characterization_witness :
    check_good_keys [("name", JValue.jstr "w")] = true :=
  (validate_stock_characterization.1 [("name", JValue.jstr "w")]).mpr
    (by refine ⟨by decide, by decide, fun h => ?_⟩; exact absurd h (by decide))

/-- Claim C3 (counterexample to the claim as stated).  The claim promises
that every request that is not accepted — in particular any request whose
header does not authenticate — is rejected with an unauthorized result
carrying a challenge header.  A request carrying the header token
username=zzqq is a counterexample: trim_str hands the bare name zzqq to
eval, which raises NameError, so the endpoint dies with a server error
carrying no challenge instead of the promised unauthorized result. -/
theorem auth_unparsed_header_error :
    auth (some "username=zzqq") "GET" "/secret"
      "0123456789abcdef0123456789abcdef" = AuthResult.error := by
  decide

/-- Claim C3 (amended).  Restricted to requests whose header tokens the
evaluator survives (parsing completes), the authenticator accepts exactly
when the header is present, the extracted username is a string found in
the credential store, and the client response is a string exactly equal to
responseHash(credentialHash(username, realm, secret), clientNonce,
requestHash(method, uri)); the missing-header, unknown-username and
mismatched-response cases are each rejected with an unauthorized result
carrying the challenge header; a header on which parsing raises is instead
a server error (see the counterexample). -/
theorem auth_accept_reject_cases (hdr : Option String) (m u fn : String) :
    (auth hdr m u fn = .success ↔
      ∃ h p password, hdr = some h ∧ parse_header h = some p ∧
        p.username.isStr = true ∧ USERS.lookup p.username.txt = some password ∧
        p.response.isStr = true ∧
        p.response.txt = calculate_response
          (calculate_ha1 p.username.txt "tinikov-webserver" password)
          p.nonce.txt (calculate_ha2 m u)) ∧
    (hdr = none →
      auth hdr m u fn = .unauthorized (challengeHeader "tinikov-webserver" fn)) ∧
    (∀ h p, hdr = some h → parse_header h = some p →
      (if p.username.isStr then USERS.lookup p.username.txt else none) = none →
      auth hdr m u fn = .unauthorized (challengeHeader "tinikov-webserver" fn)) ∧
    (∀ h p password, hdr = some h → parse_header h = some p →
      p.username.isStr = true → USERS.lookup p.username.txt = some password →
      ¬(p.response.isStr = true ∧ p.response.txt = calculate_response
          (calculate_ha1 p.username.txt "tinikov-webserver" password)
          p.nonce.txt (calculate_ha2 m u)) →
      auth hdr m u fn = .unauthorized (challengeHeader "tinikov-webserver" fn)) := by
  cases hdr with
  | none =>
    refine ⟨⟨fun hs => AuthResult.noConfusion hs, ?_⟩, fun _ => rfl, ?_, ?_⟩
    · rintro ⟨h, p, pw, hh, _⟩
      cases hh
    · intro h p hh
      cases hh
    · intro h p pw hh
      cases hh
  | some h =>
    cases hp : parse_header h with
    | none =>
      have ha : auth (some h) m u fn = .error := by
        unfold auth
        simp only [hp]
      refine ⟨⟨fun hs => ?_, ?_⟩, fun hh => Option.noConfusion hh, ?_, ?_⟩
      · rw [ha] at hs
        cases hs
      · rintro ⟨h2, p, pw, hh, hp2, _⟩
        injection hh with he
        subst he
        rw [hp] at hp2
        cases hp2
      · intro h2 p hh hp2
        injection hh with he
        subst he
        rw [hp] at hp2
        cases hp2
      · intro h2 p pw hh hp2
        injection hh with he
        subst he
        rw [hp] at hp2
        cases hp2
    | some p =>
      cases hl : (if p.username.isStr then USERS.lookup p.username.txt else none) with
      | none =>
        have ha : auth (some h) m u fn =
            .unauthorized (challengeHeader "tinikov-webserver" fn) := by
          unfold auth
          simp only [hp, hl]
        refine ⟨⟨fun hs => ?_, ?_⟩, fun hh => Option.noConfusion hh, ?_, ?_⟩
        · rw [ha] at hs
          cases hs
        · rintro ⟨h2, p2, pw, hh, hp2, hstr, hlook, _⟩
          injection hh with he
          subst he
          rw [hp] at hp2
          injection hp2 with he2
          subst he2
          rw [if_pos hstr, hlook] at hl
          cases hl
        · intro _ _ _ _ _
          exact ha
        · intro h2 p2 pw hh hp2 hstr hlook _
          exact ha
      | some password =>
        have ha : auth (some h) m u fn =
            (if p.response.isStr && p.response.txt ==
                calculate_response
                  (calculate_ha1 p.username.txt "tinikov-webserver" password)
                  p.nonce.txt (calculate_ha2 m u) then
              AuthResult.success
            else .unauthorized (challengeHeader "tinikov-webserver" fn)) := by
          unfold auth
          simp only [hp, hl]
        by_cases hr : (p.response.isStr && p.response.txt ==
            calculate_response
              (calculate_ha1 p.username.txt "tinikov-webserver" password)
              p.nonce.txt (calculate_ha2 m u)) = true
        · have haS : auth (some h) m u fn = .success := by rw [ha, if_pos hr]
          rw [Bool.and_eq_true, beq_iff_eq] at hr
          have hstr : p.username.isStr = true := by
            by_contra hx
            rw [Bool.not_eq_true] at hx
            rw [hx] at hl
            simp at hl
          have hlook : USERS.lookup p.username.txt = some password := by
            rw [if_pos hstr] at hl
            exact hl
          refine ⟨⟨fun _ => ⟨h, p, password, rfl, hp, hstr, hlook, hr.1, hr.2⟩,
              fun _ => haS⟩, fun hh => Option.noConfusion hh, ?_, ?_⟩
          · intro h2 p2 hh hp2 hl2
            injection hh with he
            subst he
            rw [hp] at hp2
            injection hp2 with he2
            subst he2
            rw [hl2] at hl
            cases hl
          · intro h2 p2 pw2 hh hp2 hstr2 hlook2 hne
            injection hh with he
            subst he
            rw [hp] at hp2
            injection hp2 with he2
            subst he2
            rw [hlook] at hlook2
            injection hlook2 with he3
            subst he3
            exact absurd ⟨hr.1, hr.2⟩ hne
        · have haU : auth (some h) m u fn =
              .unauthorized (challengeHeader "tinikov-webserver" fn) := by
            rw [ha, if_neg hr]
          have hstr : p.username.isStr = true := by
            by_contra hx
            rw [Bool.not_eq_true] at hx
            rw [hx] at hl
            simp at hl
          have hlook : USERS.lookup p.username.txt = some password := by
            rw [if_pos hstr] at hl
            exact hl
          refine ⟨⟨fun hs => ?_, ?_⟩, fun hh => Option.noConfusion hh, ?_, ?_⟩
          · rw [haU] at hs
            cases hs
          · rintro ⟨h2, p2, pw2, hh, hp2, hstr2, hlook2, hrs, hre⟩
            injection hh with he
            subst he
            rw [hp] at hp2
            injection hp2 with he2
            subst he2
            rw [hlook] at hlook2
            injection hlook2 with he3
            subst he3
            rw [Bool.and_eq_true, beq_iff_eq] at hr
            exact absurd ⟨hrs, hre⟩ hr
          · intro _ _ _ _ _
            exact haU
          · intro _ _ _ _ _ _ _ _
            exact haU

theorem auth_accept_reject_cases_witness :
    ((none : Option String) = none ∧
      auth none "GET" "/secret" "abcd" =
        .unauthorized (challengeHeader "tinikov-webserver" "abcd")) ∧
    (parse_header "username=\"bob\"" = some { username := ⟨true, "bob"⟩ } ∧
      auth (some "username=\"bob\"") "GET" "/secret" "n1" =
        .unauthorized (challengeHeader "tinikov-webserver" "n1")) :=
  ⟨⟨rfl, (auth_accept_reject_cases none "GET" "/secret" "abcd").2.1 rfl⟩,
   ⟨by decide,
    (auth_accept_reject_cases (some "username=\"bob\"") "GET" "/secret" "n1").2.2.1
      "username=\"bob\"" { username := ⟨true, "bob"⟩ } rfl (by decide) (by decide)⟩⟩
